import Mathlib

/-!
Verification of the analysis core of an AI-powered code-review backend.

The development shallowly embeds the issue-aggregation service
(`app/services/ai_analysis_service.py`), the unified-diff parser
(`app/utils/parsers/diff_parser.py`), the Python AST analyzer
(`app/utils/parsers/ast_parser.py`) and the security pattern analyzer
(`app/services/security_analyzer.py`).

Modelling conventions:
- Python dicts holding one finding are embedded as the `Issue` record.  Only
  the fields that the aggregation, deduplication, prioritization and scoring
  logic (and the claims) read are carried: `title`, `category`, `severity`,
  `rule_id`, `file_path`, `line_start`, `line_end`, `confidence_score`.
  Purely presentational fields (`description`, `code_snippet`,
  `suggested_fix`, column positions) are produced and carried unmodified by
  the source and are never read by any logic verified here, so they are
  elided from the record.
- Python floats are embedded as exact rationals (`ℚ`); `round(x, 2)` is
  embedded as rounding to the nearest hundredth.
- `IssueSeverity` is a `str`-valued enum in the source, so the string
  severities produced by the AST analyzer and the enum severities produced
  by the security analyzer compare equal; both are embedded as one
  inductive `Severity`.
- Python's `sorted` is specified (and documented) as a stable sort, also
  with `reverse=True`; a stable sort for a fixed total preorder is unique
  as a function of the input, so it is embedded by Mathlib's stable
  `List.insertionSort`.
-/

/-- `IssueSeverity` from `app/models/database/review.py` (a `str` enum). -/
inductive Severity where
  | critical
  | high
  | medium
  | low
deriving DecidableEq, Repr

/-- One finding, as produced by the analyzers in
`app/services/ai_analysis_service.py` (see the conventions above for the
elided presentational fields). -/
structure Issue where
  title : String
  category : String
  severity : Severity
  rule_id : String
  file_path : String
  line_start : Int
  line_end : Option Int
  confidence_score : ℚ
deriving DecidableEq, Repr

/-- The `severity_order` dict of `AIAnalysisService._prioritize_issues`. -/
def severityRank : Severity → Nat
  | .critical => 4
  | .high => 3
  | .medium => 2
  | .low => 1

/-- The identity tuple used by `AIAnalysisService._deduplicate_issues`
(`title`, `file_path`, `line_start`, `category`). -/
def issueKey (i : Issue) : String × String × Int × String :=
  (i.title, i.file_path, i.line_start, i.category)

/-- Worker for `_deduplicate_issues`: the Python `seen` set is embedded as
the list of keys already seen (only membership is ever queried). -/
def dedupAux (seen : List (String × String × Int × String)) :
    List Issue → List Issue
  | [] => []
  | i :: rest =>
    if issueKey i ∈ seen then dedupAux seen rest
    else i :: dedupAux (issueKey i :: seen) rest

/-- `AIAnalysisService._deduplicate_issues`. -/
def deduplicate_issues (issues : List Issue) : List Issue :=
  dedupAux [] issues

/-- The ordering used by `AIAnalysisService._prioritize_issues`:
`a` may be placed before `b` when the priority key
`(severity_rank, confidence_score)` of `a` is at least that of `b`
(descending lexicographic order, as produced by Python
`sorted(key=priority_key, reverse=True)`). -/
def priorityRel (a b : Issue) : Prop :=
  severityRank b.severity < severityRank a.severity ∨
    (severityRank a.severity = severityRank b.severity ∧
      b.confidence_score ≤ a.confidence_score)

instance : DecidableRel priorityRel := fun a b => by
  unfold priorityRel; infer_instance

instance : IsTotal Issue priorityRel := by
  constructor
  intro a b
  rcases Nat.lt_trichotomy (severityRank a.severity) (severityRank b.severity)
    with h | h | h
  · exact Or.inr (Or.inl h)
  · rcases le_total a.confidence_score b.confidence_score with hc | hc
    · exact Or.inr (Or.inr ⟨h.symm, hc⟩)
    · exact Or.inl (Or.inr ⟨h, hc⟩)
  · exact Or.inl (Or.inl h)

instance : IsTrans Issue priorityRel := by
  constructor
  intro a b c hab hbc
  rcases hab with h1 | ⟨h1, hc1⟩
  · rcases hbc with h2 | ⟨h2, _⟩
    · exact Or.inl (h2.trans h1)
    · exact Or.inl (h2 ▸ h1)
  · rcases hbc with h2 | ⟨h2, hc2⟩
    · exact Or.inl (h1 ▸ h2)
    · exact Or.inr ⟨h1.trans h2, hc2.trans hc1⟩

/-- `AIAnalysisService._prioritize_issues`: stable sort, descending by
`(severity_rank, confidence_score)`. -/
def prioritize_issues (issues : List Issue) : List Issue :=
  List.insertionSort priorityRel issues

/-- The metrics dict returned by
`AIAnalysisService.calculate_quality_metrics`. -/
structure QualityMetrics where
  code_quality_score : ℚ
  security_score : ℚ
  maintainability_score : ℚ
  performance_score : ℚ
  total_issues : Nat
  critical_issues : Nat
  high_issues : Nat
  medium_issues : Nat
  low_issues : Nat
  security_issues : Nat
  performance_issues : Nat
  maintainability_issues : Nat
deriving DecidableEq, Repr

/-- Python `round(x, 2)`: round to the nearest hundredth. -/
def round2 (q : ℚ) : ℚ :=
  (round (100 * q) : ℤ) / 100

/-- `AIAnalysisService.calculate_quality_metrics` (the `repository_id`
argument is unused by the computation and elided). -/
def calculate_quality_metrics (issues : List Issue) (total_files : ℤ) :
    QualityMetrics :=
  let critical_count := issues.countP (fun i => i.severity == .critical)
  let high_count := issues.countP (fun i => i.severity == .high)
  let medium_count := issues.countP (fun i => i.severity == .medium)
  let low_count := issues.countP (fun i => i.severity == .low)
  let security_count := issues.countP (fun i => i.category == "security")
  let performance_count := issues.countP (fun i => i.category == "performance")
  let maintainability_count :=
    issues.countP (fun i => i.category == "maintainability")
  let F : ℚ := max (total_files : ℚ) 1
  { code_quality_score := round2 (max 0 (10 -
      ((critical_count : ℚ) * 3 + (high_count : ℚ) * 2 +
        (medium_count : ℚ) * 1 + (low_count : ℚ) * (1 / 2)) / F))
    security_score := round2 (max 0 (10 - ((security_count : ℚ) * 2) / F))
    maintainability_score := round2 (max 0 (10 -
      ((maintainability_count : ℚ) * (3 / 2) + (critical_count : ℚ) * 2) / F))
    performance_score :=
      round2 (max 0 (10 - ((performance_count : ℚ) * (3 / 2)) / F))
    total_issues := issues.length
    critical_issues := critical_count
    high_issues := high_count
    medium_issues := medium_count
    low_issues := low_count
    security_issues := security_count
    performance_issues := performance_count
    maintainability_issues := maintainability_count }

/-- The aggregation interface of spec section 6: deduplicate, prioritize
(as `AIAnalysisService.analyze_file` does before returning) and compute
`QualityMetrics` over the final issue list. -/
def aggregate (issues : List Issue) (file_count : ℤ) :
    List Issue × QualityMetrics :=
  let final := prioritize_issues (deduplicate_issues issues)
  (final, calculate_quality_metrics final file_count)

/-! ### Lemmas about deduplication -/

theorem dedupAux_sublist (seen : List (String × String × Int × String)) :
    ∀ l : List Issue, List.Sublist (dedupAux seen l) l := by
  intro l
  induction l generalizing seen with
  | nil => simp [dedupAux]
  | cons i rest ih =>
    by_cases h : issueKey i ∈ seen
    · simp only [dedupAux, if_pos h]
      exact (ih seen).trans (List.sublist_cons_self i rest)
    · simp only [dedupAux, if_neg h]
      exact List.Sublist.cons₂ i (ih (issueKey i :: seen))

theorem dedupAux_filter (k : String × String × Int × String)
    (seen : List (String × String × Int × String)) (l : List Issue) :
    (dedupAux seen l).filter (fun i => issueKey i == k) =
      if k ∈ seen then []
      else (l.filter (fun i => issueKey i == k)).take 1 := by
  induction l generalizing seen with
  | nil => simp [dedupAux]
  | cons i rest ih =>
    by_cases hseen : issueKey i ∈ seen
    · simp only [dedupAux, if_pos hseen]
      rw [ih seen]
      by_cases hk : k ∈ seen
      · simp [hk]
      · have hne : (issueKey i == k) = false :=
          beq_eq_false_iff_ne.mpr (fun h => hk (h ▸ hseen))
        simp [hk, List.filter_cons, hne]
    · simp only [dedupAux, if_neg hseen]
      by_cases hik : issueKey i = k
      · subst hik
        rw [List.filter_cons, List.filter_cons]
        simp only [beq_self_eq_true, if_pos]
        rw [ih (issueKey i :: seen)]
        simp [hseen]
      · have hne : (issueKey i == k) = false := beq_eq_false_iff_ne.mpr hik
        rw [List.filter_cons, List.filter_cons]
        simp only [hne, Bool.false_eq_true, if_false]
        rw [ih (issueKey i :: seen)]
        have hmem : (k ∈ issueKey i :: seen) ↔ k ∈ seen := by
          simp [List.mem_cons]
          intro h
          exact absurd h.symm hik
        by_cases hk : k ∈ seen
        · rw [if_pos (hmem.mpr hk), if_pos hk]
        · rw [if_neg (fun h => hk (hmem.mp h)), if_neg hk]

/-- Keys already recorded while scanning `l` starting from `seen`. -/
def seenAfter (seen : List (String × String × Int × String)) :
    List Issue → List (String × String × Int × String)
  | [] => seen
  | i :: rest =>
    if issueKey i ∈ seen then seenAfter seen rest
    else seenAfter (issueKey i :: seen) rest

theorem dedupAux_append (seen : List (String × String × Int × String))
    (l₁ l₂ : List Issue) :
    dedupAux seen (l₁ ++ l₂) =
      dedupAux seen l₁ ++ dedupAux (seenAfter seen l₁) l₂ := by
  induction l₁ generalizing seen with
  | nil => simp [dedupAux, seenAfter]
  | cons i rest ih =>
    by_cases h : issueKey i ∈ seen <;>
      simp [dedupAux, seenAfter, h, ih]

theorem subset_seenAfter (seen : List (String × String × Int × String))
    (l : List Issue) (x : String × String × Int × String) (hx : x ∈ seen) :
    x ∈ seenAfter seen l := by
  induction l generalizing seen with
  | nil => simpa [seenAfter]
  | cons i rest ih =>
    by_cases h : issueKey i ∈ seen
    · simpa [seenAfter, h] using ih seen hx
    · simpa [seenAfter, h] using ih (issueKey i :: seen) (List.mem_cons_of_mem _ hx)

theorem mem_seenAfter (seen : List (String × String × Int × String))
    (l : List Issue) (i : Issue) (hi : i ∈ l) :
    issueKey i ∈ seenAfter seen l := by
  induction l generalizing seen with
  | nil => cases hi
  | cons j rest ih =>
    rcases List.mem_cons.mp hi with h | h
    · subst h
      by_cases hj : issueKey i ∈ seen
      · simpa [seenAfter, hj] using subset_seenAfter seen rest _ hj
      · simpa [seenAfter, hj] using
          subset_seenAfter (issueKey i :: seen) rest _ (List.mem_cons_self _ _)
    · by_cases hj : issueKey j ∈ seen
      · simpa [seenAfter, hj] using ih seen h
      · simpa [seenAfter, hj] using ih (issueKey j :: seen) h

theorem dedupAux_eq_nil_of_seen (seen : List (String × String × Int × String))
    (l : List Issue) (h : ∀ i ∈ l, issueKey i ∈ seen) :
    dedupAux seen l = [] := by
  induction l with
  | nil => rfl
  | cons i rest ih =>
    have hi := h i (List.mem_cons_self _ _)
    simp only [dedupAux, if_pos hi]
    exact ih fun j hj => h j (List.mem_cons_of_mem _ hj)

theorem deduplicate_append_self (l : List Issue) :
    deduplicate_issues (l ++ l) = deduplicate_issues l := by
  unfold deduplicate_issues
  rw [dedupAux_append]
  rw [dedupAux_eq_nil_of_seen (seenAfter [] l) l
    (fun i hi => mem_seenAfter [] l i hi)]
  simp

/-! ### Claim theorems about aggregation (C2, C3, C4, C5) -/

/-- C2: for every list of issues, the output of `_prioritize_issues` is
sorted so that each adjacent pair `(a, b)` has
`severity_rank a ≥ severity_rank b` (with ranks critical=4, high=3,
medium=2, low=1), confidence breaking ties descending, and issues equal on
both keys keep their relative input order (stable sort). -/
theorem prioritize_sorted_and_stable (l : List Issue) :
    List.Chain' (fun a b =>
      severityRank b.severity < severityRank a.severity ∨
        (severityRank a.severity = severityRank b.severity ∧
          b.confidence_score ≤ a.confidence_score)) (prioritize_issues l) ∧
    ∀ a b : Issue, List.Sublist [a, b] l →
      severityRank a.severity = severityRank b.severity →
      a.confidence_score = b.confidence_score →
      List.Sublist [a, b] (prioritize_issues l) := by
  constructor
  · exact (List.sorted_insertionSort priorityRel l).chain'
  · intro a b hsub hsev hconf
    exact List.pair_sublist_insertionSort
      (Or.inr ⟨hsev, le_of_eq hconf.symm⟩) hsub

/-- A sample issue used to instantiate hypotheses of claim theorems. -/
def sampleIssueA : Issue :=
  { title := "Bare Except Clause", category := "code_quality",
    severity := .high, rule_id := "bare_except", file_path := "app.py",
    line_start := 3, line_end := some 3, confidence_score := mkRat 4 5 }

/-- A second sample issue with the same priority key as `sampleIssueA`. -/
def sampleIssueB : Issue :=
  { title := "Mutable Default Argument", category := "code_quality",
    severity := .high, rule_id := "mutable_default", file_path := "app.py",
    line_start := 9, line_end := some 9, confidence_score := mkRat 4 5 }

theorem prioritize_sorted_and_stable_witness :
    List.Sublist [sampleIssueA, sampleIssueB]
      (prioritize_issues [sampleIssueA, sampleIssueB]) :=
  (prioritize_sorted_and_stable [sampleIssueA, sampleIssueB]).2
    sampleIssueA sampleIssueB (List.Sublist.refl _) rfl rfl

/-- C3: deduplication keeps, for every identity tuple
`(title, file_path, line_start, category)`, exactly the first occurrence in
input order, unchanged: the output is a sublist of the input and its
restriction to any key equals the first element of the input's restriction
to that key.  The key ignores every other field, so issues equal on the
tuple are identified regardless of which analyzer produced them. -/
theorem deduplicate_keeps_first_occurrence (l : List Issue) :
    List.Sublist (deduplicate_issues l) l ∧
    ∀ k : String × String × Int × String,
      (deduplicate_issues l).filter (fun i => issueKey i == k) =
        (l.filter (fun i => issueKey i == k)).take 1 := by
  refine ⟨dedupAux_sublist [] l, fun k => ?_⟩
  rw [deduplicate_issues, dedupAux_filter k [] l]
  simp

/-- C4: aggregation is idempotent under input duplication: for every issue
list `l` and file count `F ≥ 1`, aggregating `l ++ l` and aggregating `l`
produce the same final issue list and the same metrics, because the second
copy of every issue is removed by identity-tuple deduplication before the
sort. -/
theorem aggregate_idempotent_under_duplication (l : List Issue) (F : ℤ)
    (hF : 1 ≤ F) :
    aggregate (l ++ l) F = aggregate l F := by
  unfold aggregate
  rw [deduplicate_append_self]

theorem aggregate_idempotent_under_duplication_witness :
    aggregate ([sampleIssueA] ++ [sampleIssueA]) 1 = aggregate [sampleIssueA] 1 :=
  aggregate_idempotent_under_duplication [sampleIssueA] 1 (by decide)

theorem round2_bounds (q : ℚ) (h0 : 0 ≤ q) (h10 : q ≤ 10) :
    0 ≤ round2 q ∧ round2 q ≤ 10 := by
  unfold round2
  constructor
  · apply div_nonneg _ (by norm_num)
    have h : (0 : ℤ) ≤ round (100 * q) := by
      rw [round_eq]
      apply Int.le_floor.mpr
      push_cast
      linarith
    exact_mod_cast h
  · rw [div_le_iff (by norm_num : (0 : ℚ) < 100)]
    have h : round (100 * q) ≤ 1000 := by
      rw [round_eq]
      have hlt : (100 * q + 1 / 2) < ((1001 : ℤ) : ℚ) := by
        push_cast
        linarith
      have := Int.floor_lt.mpr hlt
      omega
    calc ((round (100 * q) : ℤ) : ℚ) ≤ ((1000 : ℤ) : ℚ) := by exact_mod_cast h
      _ ≤ 10 * 100 := by norm_num

theorem score_bounds (w d : ℚ) (hw : 0 ≤ w) (hd : 0 < d) :
    0 ≤ round2 (max 0 (10 - w / d)) ∧ round2 (max 0 (10 - w / d)) ≤ 10 := by
  apply round2_bounds
  · exact le_max_left 0 _
  · apply max_le (by norm_num)
    have : 0 ≤ w / d := div_nonneg hw hd.le
    linarith

/-- C5: for every issue list and file count `F ≥ 1`, all four quality
scores lie in `[0, 10]`, and each equals the spec's formula (weighted
severity or category counts divided by `F`, clamped at 0, rounded to two
decimals). -/
theorem quality_metrics_bounded_and_formulaic (issues : List Issue) (F : ℤ)
    (hF : 1 ≤ F) :
    (0 ≤ (calculate_quality_metrics issues F).code_quality_score ∧
      (calculate_quality_metrics issues F).code_quality_score ≤ 10) ∧
    (0 ≤ (calculate_quality_metrics issues F).security_score ∧
      (calculate_quality_metrics issues F).security_score ≤ 10) ∧
    (0 ≤ (calculate_quality_metrics issues F).maintainability_score ∧
      (calculate_quality_metrics issues F).maintainability_score ≤ 10) ∧
    (0 ≤ (calculate_quality_metrics issues F).performance_score ∧
      (calculate_quality_metrics issues F).performance_score ≤ 10) ∧
    (calculate_quality_metrics issues F).code_quality_score =
      round2 (max 0 (10 -
        ((issues.countP (fun i => i.severity == .critical) : ℚ) * 3 +
          (issues.countP (fun i => i.severity == .high) : ℚ) * 2 +
          (issues.countP (fun i => i.severity == .medium) : ℚ) * 1 +
          (issues.countP (fun i => i.severity == .low) : ℚ) * (1 / 2)) /
          (F : ℚ))) ∧
    (calculate_quality_metrics issues F).security_score =
      round2 (max 0 (10 -
        ((issues.countP (fun i => i.category == "security") : ℚ) * 2) /
          (F : ℚ))) ∧
    (calculate_quality_metrics issues F).maintainability_score =
      round2 (max 0 (10 -
        ((issues.countP (fun i => i.category == "maintainability") : ℚ) *
            (3 / 2) +
          (issues.countP (fun i => i.severity == .critical) : ℚ) * 2) /
          (F : ℚ))) ∧
    (calculate_quality_metrics issues F).performance_score =
      round2 (max 0 (10 -
        ((issues.countP (fun i => i.category == "performance") : ℚ) *
          (3 / 2)) / (F : ℚ))) := by
  have hFq : (1 : ℚ) ≤ (F : ℚ) := by exact_mod_cast hF
  have hmax : max (F : ℚ) 1 = (F : ℚ) := max_eq_left hFq
  have hdpos : (0 : ℚ) < max (F : ℚ) 1 := lt_max_iff.mpr (Or.inr one_pos)
  simp only [calculate_quality_metrics, hmax]
  refine ⟨?_, ?_, ?_, ?_, trivial, trivial, trivial, trivial⟩ <;>
    exact score_bounds _ _ (by positivity) (hmax ▸ hdpos)

theorem quality_metrics_bounded_and_formulaic_witness :
    0 ≤ (calculate_quality_metrics [sampleIssueA] 1).code_quality_score :=
  ((quality_metrics_bounded_and_formulaic [sampleIssueA] 1 (by decide)).1).1

/-! ### Diff parser (`app/utils/parsers/diff_parser.py`)

Lines and raw text are processed as `List Char`; Python regular expressions
used by the parser (`diff --git a/.*? b/.*?\n`, the anchored
`diff --git a/(.*?) b/(.*)` and hunk-header patterns) are embedded by
direct scanners with the same match semantics (lazy groups = first
occurrence, `.` never matches a newline, `re.match` anchored at the
start). -/

/-- The characters stripped by Python `str.strip()` (ASCII whitespace; the
rarely seen further Unicode space characters are not exercised here). -/
def pyIsSpace (c : Char) : Bool :=
  c = ' ' || c = '\t' || c = '\n' || c = '\r' || c = '\x0b' || c = '\x0c'

/-- Python `str.strip()`. -/
def stripChars (cs : List Char) : List Char :=
  ((cs.dropWhile pyIsSpace).reverse.dropWhile pyIsSpace).reverse

/-- Python `sub in hay` substring containment. -/
def containsSub (sub : List Char) : List Char → Bool
  | [] => sub.isEmpty
  | c :: rest => sub.isPrefixOf (c :: rest) || containsSub sub rest

/-- `str.startswith(pre)` (over the character list, as the kernel-friendly
form used throughout this embedding). -/
def strStarts (pre s : String) : Bool :=
  pre.toList.isPrefixOf s.toList

/-- `str.endswith(suf)`. -/
def strEnds (suf s : String) : Bool :=
  suf.toList.isSuffixOf s.toList

/-- `line.startswith(p)`. -/
def lineStarts (p : String) (cs : List Char) : Bool :=
  p.toList.isPrefixOf cs

/-- Python `text.split('\n')`. -/
def splitOnNl : List Char → List (List Char)
  | [] => [[]]
  | c :: rest =>
    match splitOnNl rest with
    | g :: gs => if c = '\n' then [] :: g :: gs else (c :: g) :: gs
    | [] => [[c]]

/-- Python whitespace `str.split()` (no argument: runs of whitespace,
empty tokens discarded). -/
def pySplitWsGo : List Char → List Char → List (List Char)
  | [], cur => if cur.isEmpty then [] else [cur.reverse]
  | c :: rest, cur =>
    if pyIsSpace c then
      if cur.isEmpty then pySplitWsGo rest []
      else cur.reverse :: pySplitWsGo rest []
    else pySplitWsGo rest (c :: cur)

/-- `line.split()[-1]` (a mode line always has a final token). -/
def lastTokenD (cs : List Char) : String :=
  String.mk ((pySplitWsGo cs []).getLastD [])

/-- Digits to a number, for the `(\d+)` groups. -/
def digitsToNat (ds : List Char) : Nat :=
  ds.foldl (fun n c => n * 10 + (c.toNat - 48)) 0

/-- First occurrence split: `splitFirstSub sub cs = some (before, after)`
when `sub` occurs in `cs` (the lazy-group semantics of `(.*?)sub`). -/
def splitFirstSub (sub : List Char) : List Char → Option (List Char × List Char)
  | [] => if sub.isEmpty then some ([], []) else none
  | c :: rest =>
    if sub.isPrefixOf (c :: rest) then some ([], (c :: rest).drop sub.length)
    else (splitFirstSub sub rest).map (fun p => (c :: p.1, p.2))

/-- `ChangeType` from `diff_parser.py`. -/
inductive ChangeType where
  | added
  | removed
  | modified
deriving DecidableEq, Repr

/-- One classified diff line (`line_number` and `content` dict). -/
structure DiffLine where
  line_number : Nat
  content : String
deriving DecidableEq, Repr

/-- A hunk dict as built by `DiffParser._parse_hunk_header`. -/
structure Hunk where
  old_start : Nat
  old_count : Nat
  new_start : Nat
  new_count : Nat
  context : String
  added_lines : List DiffLine
  removed_lines : List DiffLine
  context_lines : List DiffLine
  no_newline : Bool
deriving DecidableEq, Repr

/-- A per-file dict as built by `DiffParser._parse_file_diff`. -/
structure DiffFile where
  file_path : String
  old_file : Option String
  new_file : Option String
  change_type : ChangeType
  is_binary : Bool
  hunks : List Hunk
  additions : Nat
  deletions : Nat
  changes : Nat
  file_mode_change : Option String
deriving DecidableEq, Repr

/-- The result dict of `DiffParser.parse_diff`. -/
structure DiffResult where
  files : List DiffFile
  total_files : Nat
  total_additions : Nat
  total_deletions : Nat
  total_changes : Nat
deriving DecidableEq, Repr

/-- `DiffParser._empty_diff_result`. -/
def emptyDiffResult : DiffResult :=
  { files := [], total_files := 0, total_additions := 0,
    total_deletions := 0, total_changes := 0 }

/-- The optional `(?:,(\d+))?` group of the hunk-header pattern: a comma
followed by at least one digit, else the count defaults to 1 and nothing
is consumed. -/
def optCount (cs : List Char) : Nat × List Char :=
  match cs with
  | ',' :: rest =>
    let ds := rest.takeWhile Char.isDigit
    if ds.isEmpty then (1, cs) else (digitsToNat ds, rest.drop ds.length)
  | _ => (1, cs)

/-- `DiffParser._parse_hunk_header`: the anchored pattern
`@@ -(\d+)(?:,(\d+))? \+(\d+)(?:,(\d+))? @@(.*)`. -/
def parseHunkHeader (cs : List Char) : Option Hunk :=
  if lineStarts "@@ -" cs then
    let r0 := cs.drop 4
    let d1 := r0.takeWhile Char.isDigit
    if d1.isEmpty then none
    else
      let r1 := r0.drop d1.length
      let (oldCount, r2) := optCount r1
      if lineStarts " +" r2 then
        let r3 := r2.drop 2
        let d2 := r3.takeWhile Char.isDigit
        if d2.isEmpty then none
        else
          let r4 := r3.drop d2.length
          let (newCount, r5) := optCount r4
          if lineStarts " @@" r5 then
            some { old_start := digitsToNat d1, old_count := oldCount,
                   new_start := digitsToNat d2, new_count := newCount,
                   context := String.mk (stripChars (r5.drop 3)),
                   added_lines := [], removed_lines := [],
                   context_lines := [], no_newline := false }
          else none
      else none
  else none

/-- The line-classification loop of `DiffParser._parse_hunks`. -/
def parseHunksGo : List (List Char) → Option Hunk → List Hunk
  | [], cur =>
    match cur with
    | some h => [h]
    | none => []
  | line :: rest, cur =>
    if lineStarts "@@" line then
      (match cur with
        | some h => [h]
        | none => []) ++ parseHunksGo rest (parseHunkHeader line)
    else
      match cur with
      | none => parseHunksGo rest none
      | some h =>
        if lineStarts "+" line && !lineStarts "+++" line then
          parseHunksGo rest (some { h with added_lines := h.added_lines ++
            [{ line_number := h.new_start + h.added_lines.length,
               content := String.mk (line.drop 1) }] })
        else if lineStarts "-" line && !lineStarts "---" line then
          parseHunksGo rest (some { h with removed_lines := h.removed_lines ++
            [{ line_number := h.old_start + h.removed_lines.length,
               content := String.mk (line.drop 1) }] })
        else if lineStarts " " line then
          parseHunksGo rest (some { h with context_lines := h.context_lines ++
            [{ line_number := h.old_start + h.context_lines.length,
               content := String.mk (line.drop 1) }] })
        else if lineStarts "\\" line then
          parseHunksGo rest (some { h with no_newline := true })
        else parseHunksGo rest (some h)

/-- `DiffParser._parse_hunks`. -/
def parseHunks (lines : List (List Char)) : List Hunk :=
  parseHunksGo lines none

/-- The mutable `file_info` dict of `DiffParser._extract_file_info`.
`file_path` is falsy both when unset (`None`) and when the matched group
is the empty string. -/
structure FileInfo where
  file_path : Option String
  old_file : Option String
  new_file : Option String
  change_type : ChangeType
  is_binary : Bool
  mode_change : Option String
deriving DecidableEq, Repr

def fileInfoPathFalsy (fi : FileInfo) : Bool :=
  match fi.file_path with
  | none => true
  | some s => s.isEmpty

/-- The anchored pattern `diff --git a/(.*?) b/(.*)` of
`_extract_file_info`. -/
def matchDiffGit (cs : List Char) : Option (String × String) :=
  if lineStarts "diff --git a/" cs then
    (splitFirstSub (" b/".toList) (cs.drop 13)).map
      (fun p => (String.mk p.1, String.mk p.2))
  else none

/-- Python `name.lstrip(chars)`. -/
def pyLstrip (chars : List Char) (cs : List Char) : List Char :=
  cs.dropWhile (fun c => chars.contains c)

/-- One header line of the `_extract_file_info` scan (the `index` branch
only records commit hashes, which nothing ever reads; it is kept as an
explicit no-op so that an `index` line is not examined by the later
branches, exactly as the `elif` chain does). -/
def extractStep (fi : FileInfo) (line : List Char) : FileInfo :=
  if lineStarts "diff --git" line then
    match matchDiffGit line with
    | some p =>
      { fi with old_file := some p.1, new_file := some p.2,
                file_path := some p.2 }
    | none => fi
  else if lineStarts "new file mode" line then
    { fi with change_type := .added, mode_change := some (lastTokenD line) }
  else if lineStarts "deleted file mode" line then
    { fi with change_type := .removed, mode_change := some (lastTokenD line) }
  else if containsSub ("Binary files".toList) line &&
      containsSub ("differ".toList) line then
    { fi with is_binary := true }
  else if lineStarts "index" line then fi
  else if lineStarts "---" line then
    let old_path := stripChars (line.drop 4)
    if old_path ≠ "/dev/null".toList then
      { fi with old_file := some (String.mk (pyLstrip ['a', '/'] old_path)) }
    else fi
  else if lineStarts "+++" line then
    let new_path := stripChars (line.drop 4)
    let stripped := String.mk (pyLstrip ['b', '/'] new_path)
    if new_path ≠ "/dev/null".toList then
      { fi with
        new_file := some stripped
        file_path :=
          if fileInfoPathFalsy fi then some stripped else fi.file_path }
    else fi
  else fi

/-- `DiffParser._extract_file_info` over the first 10 lines. -/
def extractFileInfo (lines : List (List Char)) : Option FileInfo :=
  let fi := (lines.take 10).foldl extractStep
    { file_path := none, old_file := none, new_file := none,
      change_type := .modified, is_binary := false, mode_change := none }
  if fileInfoPathFalsy fi then none else some fi

/-- `DiffParser._parse_file_diff`. -/
def parseFileDiff (block : List Char) : Option DiffFile :=
  let lines := splitOnNl block
  match extractFileInfo lines with
  | none => none
  | some fi =>
    let hunks := parseHunks lines
    let additions := (hunks.map (fun h => h.added_lines.length)).sum
    let deletions := (hunks.map (fun h => h.removed_lines.length)).sum
    some { file_path := fi.file_path.getD "", old_file := fi.old_file,
           new_file := fi.new_file, change_type := fi.change_type,
           is_binary := fi.is_binary, hunks := hunks,
           additions := additions, deletions := deletions,
           changes := additions + deletions,
           file_mode_change := fi.mode_change }

/-- A match of the file-split pattern `diff --git a/.*? b/.*?\n` starting
at the head of `cs`: the header prefix, a ` b/` later in the same line,
and the line's terminating newline; the match spans the whole line
including the newline. -/
def headerLen (cs : List Char) : Option Nat :=
  if lineStarts "diff --git a/" cs then
    let line := cs.takeWhile (fun c => c ≠ '\n')
    if containsSub (" b/".toList) (line.drop 13) && cs.length > line.length
    then some (line.length + 1)
    else none
  else none

/-- The combined `re.split` and `re.findall` scan of
`_split_diff_by_files`: returns the pieces between matches and the matched
header lines.  `fuel` bounds the scan by the text length (each step
consumes at least one character). -/
def splitDiffGo : Nat → List Char → List Char → List (List Char) × List (List Char)
  | 0, cs, acc => ([acc.reverse ++ cs], [])
  | _ + 1, [], acc => ([acc.reverse], [])
  | fuel + 1, c :: rest, acc =>
    match headerLen (c :: rest) with
    | some n =>
      let r := splitDiffGo fuel ((c :: rest).drop n) []
      (acc.reverse :: r.1, ((c :: rest).take n) :: r.2)
    | none => splitDiffGo fuel rest (c :: acc)

/-- `DiffParser._split_diff_by_files`: drop a blank leading piece, then
re-attach each header to the piece that follows it. -/
def reattachHeaders : List (List Char) → List (List Char) → List (List Char)
  | ps, [] => ps
  | [], _ => []
  | p :: ps, h :: hs => (h ++ p) :: reattachHeaders ps hs

def splitDiffByFiles (cs : List Char) : List (List Char) :=
  let r := splitDiffGo cs.length cs []
  let pieces :=
    match r.1 with
    | p :: rest => if stripChars p = [] then rest else p :: rest
    | [] => []
  reattachHeaders pieces r.2

/-- `DiffParser.parse_diff`.  The Python body is wrapped in a blanket
`try/except` returning the empty result; every helper of this embedding is
total (helpers that Python protects with their own `try/except` return
`Option` and a failed block is dropped by `filterMap`), so the embedded
body cannot fail. -/
def parse_diff (s : String) : DiffResult :=
  if s = "" ∨ stripChars s.toList = [] then emptyDiffResult
  else
    let blocks := splitDiffByFiles s.toList
    let parsed := blocks.filterMap parseFileDiff
    { files := parsed, total_files := parsed.length,
      total_additions := (parsed.map (fun f => f.additions)).sum,
      total_deletions := (parsed.map (fun f => f.deletions)).sum,
      total_changes := (parsed.map (fun f => f.changes)).sum }

/-! ### Claim theorems about the diff parser (C1, C10) -/

set_option maxRecDepth 100000

/-- The unified diff of spec section 8. -/
def sampleDiff : String :=
  "diff --git a/foo.py b/foo.py\nindex e69de29..4b825dc 100644\n--- a/foo.py\n+++ b/foo.py\n@@ -1,2 +1,3 @@\n a = 1\n+b = 2\n c = 3\n"

/-- C1, counterexample: contrary to the claim, the single added line of
the spec section 8 diff does not carry absolute line number 2 (the parser
numbers an added line `new_start` plus its index among the added lines
seen so far in the hunk; context lines do not advance that counter, so
`+b = 2` gets number 1 + 0 = 1). -/
theorem parse_diff_sample_added_line_is_not_two :
    ¬ ((parse_diff sampleDiff).files.map
        (fun f => f.hunks.map
          (fun h => h.added_lines.map (fun dl => dl.line_number))) =
      [[[2]]]) := by
  decide

/-- C1, amended: on the spec section 8 diff, `parse_diff` returns exactly
one file with `file_path = "foo.py"`, `change_type = modified`,
`additions = 1`, `deletions = 0`, exactly one hunk with
`old_start = 1, old_count = 2, new_start = 1, new_count = 3`, and the
single added line carries line number 1 (`new_start` plus its index among
the hunk's added lines). -/
theorem parse_diff_sample_roundtrip :
    (parse_diff sampleDiff).total_files = 1 ∧
    (parse_diff sampleDiff).files.map
        (fun f => (f.file_path, f.change_type, f.additions, f.deletions)) =
      [("foo.py", ChangeType.modified, 1, 0)] ∧
    (parse_diff sampleDiff).files.map
        (fun f => f.hunks.map
          (fun h => (h.old_start, h.old_count, h.new_start, h.new_count))) =
      [[(1, 2, 1, 3)]] ∧
    (parse_diff sampleDiff).files.map
        (fun f => f.hunks.map
          (fun h => h.added_lines.map (fun dl => dl.line_number))) =
      [[[1]]] := by
  refine ⟨by decide, by decide, by decide, by decide⟩

/-- C10: for every input that is empty or whitespace-only, `parse_diff`
returns the fixed empty result structure.  (The claim's other half — that
an internal exception also produces the empty result and never escapes —
is the `try/except` wrapper of `parse_diff`; the embedding is total, with
each internally-guarded helper returning `Option` and failed file blocks
dropped, so no failure can escape by construction.) -/
theorem parse_diff_blank_input (s : String)
    (h : ∀ c ∈ s.toList, pyIsSpace c) :
    parse_diff s = emptyDiffResult := by
  have hstrip : stripChars s.toList = [] := by
    unfold stripChars
    rw [List.dropWhile_eq_nil_iff.mpr h]
    rfl
  rw [parse_diff, if_pos (Or.inr hstrip)]

theorem parse_diff_blank_input_witness :
    parse_diff " \t\n " = emptyDiffResult :=
  parse_diff_blank_input " \t\n " (by decide)

/-! ### Python AST (`app/utils/parsers/ast_parser.py`)

The `ast` module's tree is embedded as the inductive `PyNode`, covering the
node kinds that the analyzers inspect.  Plumbing wrappers that no analyzer
looks at (`arguments`/`arg`, decorator lists, `Load`/`Store` objects) are
elided: a function's default expressions and statement body are direct
children, and a `Name`'s context is the boolean `isLoad`.  Async variants
(`AsyncFunctionDef`, `AsyncFor`, `AsyncWith`) and float constants are not
modelled (no claim exercises them).  `ast.walk` is breadth-first over
`iter_child_nodes`; it is embedded with a queue and a structural fuel, the
total node-weight `pySizeList` of the queue, which dominates the number of
dequeue steps (each step consumes one node of weight at least one and
enqueues only its children, of strictly smaller total weight);
`pyWalk_cons` proves the breadth-first step equation, so the fuel choice
is immaterial. -/

inductive PyVal where
  | intV (z : Int)
  | strV (s : String)
  | boolV (b : Bool)
  | noneV
deriving DecidableEq, Repr

inductive BinOpK where
  | add
  | mod
  | otherOp
deriving DecidableEq, Repr

inductive CmpOpK where
  | eq
  | notEq
  | isCmp
  | otherCmp
deriving DecidableEq, Repr

inductive PyNode where
  | module (body : List PyNode)
  | functionDef (name : String) (args : List String) (defaults : List PyNode)
      (body : List PyNode) (lineno endLineno : Nat)
  | classDef (name : String) (body : List PyNode) (lineno : Nat)
  | returnStmt (value : Option PyNode) (lineno : Nat)
  | assign (targets : List PyNode) (value : PyNode) (lineno : Nat)
  | augAssign (target : PyNode) (op : BinOpK) (value : PyNode) (lineno : Nat)
  | forStmt (target iter : PyNode) (body orelse : List PyNode) (lineno : Nat)
  | whileStmt (test : PyNode) (body orelse : List PyNode) (lineno : Nat)
  | ifStmt (test : PyNode) (body orelse : List PyNode) (lineno : Nat)
  | withStmt (items : List PyNode) (body : List PyNode) (lineno : Nat)
  | tryStmt (body handlers orelse finalbody : List PyNode) (lineno : Nat)
  | exceptHandler (exnType : Option PyNode) (body : List PyNode) (lineno : Nat)
  | assertStmt (test : PyNode) (lineno : Nat)
  | globalStmt (names : List String) (lineno : Nat)
  | exprStmt (value : PyNode) (lineno : Nat)
  | passStmt (lineno : Nat)
  | boolOp (isAnd : Bool) (values : List PyNode) (lineno : Nat)
  | binOp (left : PyNode) (op : BinOpK) (right : PyNode) (lineno : Nat)
  | compare (left : PyNode) (ops : List CmpOpK) (comparators : List PyNode)
      (lineno : Nat)
  | call (func : PyNode) (args : List PyNode) (kwNames : List (Option String))
      (kwValues : List PyNode) (lineno : Nat)
  | attribute (value : PyNode) (attr : String) (lineno : Nat)
  | nameNode (id : String) (isLoad : Bool) (lineno : Nat)
  | constant (v : PyVal) (lineno : Nat)
  | listLit (elts : List PyNode) (lineno : Nat)
  | dictLit (keys values : List PyNode) (lineno : Nat)
  | setLit (elts : List PyNode) (lineno : Nat)
  | listComp (elt : PyNode) (generators : List PyNode) (lineno : Nat)
  | compClause (target iter : PyNode) (ifs : List PyNode)

/-- `ast.iter_child_nodes`, in field order. -/
def nodeChildren : PyNode → List PyNode
  | .module body => body
  | .functionDef _ _ defaults body _ _ => defaults ++ body
  | .classDef _ body _ => body
  | .returnStmt v _ => v.toList
  | .assign targets value _ => targets ++ [value]
  | .augAssign target _ value _ => [target, value]
  | .forStmt target iter body orelse _ => target :: iter :: (body ++ orelse)
  | .whileStmt test body orelse _ => test :: (body ++ orelse)
  | .ifStmt test body orelse _ => test :: (body ++ orelse)
  | .withStmt items body _ => items ++ body
  | .tryStmt body handlers orelse finalbody _ =>
      body ++ handlers ++ orelse ++ finalbody
  | .exceptHandler t body _ => t.toList ++ body
  | .assertStmt test _ => [test]
  | .globalStmt _ _ => []
  | .exprStmt v _ => [v]
  | .passStmt _ => []
  | .boolOp _ values _ => values
  | .binOp l _ r _ => [l, r]
  | .compare l _ comps _ => l :: comps
  | .call f args _ kwVals _ => f :: (args ++ kwVals)
  | .attribute v _ _ => [v]
  | .nameNode _ _ _ => []
  | .constant _ _ => []
  | .listLit elts _ => elts
  | .dictLit ks vs _ => ks ++ vs
  | .setLit elts _ => elts
  | .listComp elt gens _ => elt :: gens
  | .compClause t it ifs => t :: it :: ifs

mutual

/-- Node weight: one per node, summed over all descendants. -/
def pySize : PyNode → Nat
  | .module body => 1 + pySizeList body
  | .functionDef _ _ defaults body _ _ => 1 + pySizeList defaults + pySizeList body
  | .classDef _ body _ => 1 + pySizeList body
  | .returnStmt none _ => 1
  | .returnStmt (some x) _ => 1 + pySize x
  | .assign targets value _ => 1 + pySizeList targets + pySize value
  | .augAssign target _ value _ => 1 + pySize target + pySize value
  | .forStmt target iter body orelse _ =>
      1 + pySize target + pySize iter + pySizeList body + pySizeList orelse
  | .whileStmt test body orelse _ =>
      1 + pySize test + pySizeList body + pySizeList orelse
  | .ifStmt test body orelse _ =>
      1 + pySize test + pySizeList body + pySizeList orelse
  | .withStmt items body _ => 1 + pySizeList items + pySizeList body
  | .tryStmt body handlers orelse finalbody _ =>
      1 + pySizeList body + pySizeList handlers + pySizeList orelse +
        pySizeList finalbody
  | .exceptHandler none body _ => 1 + pySizeList body
  | .exceptHandler (some t) body _ => 1 + pySize t + pySizeList body
  | .assertStmt test _ => 1 + pySize test
  | .globalStmt _ _ => 1
  | .exprStmt v _ => 1 + pySize v
  | .passStmt _ => 1
  | .boolOp _ values _ => 1 + pySizeList values
  | .binOp l _ r _ => 1 + pySize l + pySize r
  | .compare l _ comps _ => 1 + pySize l + pySizeList comps
  | .call f args _ kwVals _ => 1 + pySize f + pySizeList args + pySizeList kwVals
  | .attribute v _ _ => 1 + pySize v
  | .nameNode _ _ _ => 1
  | .constant _ _ => 1
  | .listLit elts _ => 1 + pySizeList elts
  | .dictLit ks vs _ => 1 + pySizeList ks + pySizeList vs
  | .setLit elts _ => 1 + pySizeList elts
  | .listComp elt gens _ => 1 + pySize elt + pySizeList gens
  | .compClause t it ifs => 1 + pySize t + pySize it + pySizeList ifs

def pySizeList : List PyNode → Nat
  | [] => 0
  | n :: rest => pySize n + pySizeList rest

end

/-- `ast.walk` (breadth-first), with a structural fuel. -/
def pyWalkF : Nat → List PyNode → List PyNode
  | _, [] => []
  | fuel + 1, n :: rest => n :: pyWalkF fuel (rest ++ nodeChildren n)
  | 0, q => q

def pyWalk (q : List PyNode) : List PyNode :=
  pyWalkF (pySizeList q) q

theorem pySizeList_append (a b : List PyNode) :
    pySizeList (a ++ b) = pySizeList a + pySizeList b := by
  induction a with
  | nil => simp [pySizeList]
  | cons x a ih => simp [pySizeList, ih]; omega

theorem pySize_pos (n : PyNode) : 1 ≤ pySize n := by
  cases n with
  | returnStmt v _ => cases v <;> simp [pySize]
  | exceptHandler t _ _ => cases t <;> simp [pySize] <;> omega
  | _ => simp [pySize] <;> omega

theorem pySizeList_nodeChildren_lt (n : PyNode) :
    pySizeList (nodeChildren n) < pySize n := by
  cases n with
  | returnStmt v _ =>
    cases v <;> simp [nodeChildren, pySize, pySizeList, Option.toList]
  | exceptHandler t _ _ =>
    cases t <;>
      simp [nodeChildren, pySize, pySizeList, Option.toList,
        pySizeList_append] <;>
      omega
  | _ =>
    simp [nodeChildren, pySize, pySizeList, pySizeList_append] <;> omega

theorem pyWalkF_congr :
    ∀ (f1 : Nat) (q : List PyNode) (f2 : Nat),
      pySizeList q ≤ f1 → pySizeList q ≤ f2 →
      pyWalkF f1 q = pyWalkF f2 q := by
  intro f1
  induction f1 with
  | zero =>
    intro q f2 h1 _
    match q with
    | [] => cases f2 <;> rfl
    | n :: rest =>
      exfalso
      have hn := pySize_pos n
      have hq : pySizeList (n :: rest) = pySize n + pySizeList rest := rfl
      omega
  | succ a ih =>
    intro q f2 h1 h2
    match q with
    | [] => cases f2 <;> rfl
    | n :: rest =>
      have hn := pySize_pos n
      have hq : pySizeList (n :: rest) = pySize n + pySizeList rest := rfl
      match f2 with
      | 0 => exfalso; omega
      | b + 1 =>
        show n :: pyWalkF a (rest ++ nodeChildren n) =
          n :: pyWalkF b (rest ++ nodeChildren n)
        have hch := pySizeList_nodeChildren_lt n
        have hsz := pySizeList_append rest (nodeChildren n)
        rw [ih (rest ++ nodeChildren n) b (by omega) (by omega)]

/-- The defining breadth-first step of `pyWalk`: dequeue a node, emit it,
enqueue its children; the fuel choice is immaterial. -/
theorem pyWalk_cons (n : PyNode) (rest : List PyNode) :
    pyWalk (n :: rest) = n :: pyWalk (rest ++ nodeChildren n) := by
  have hch := pySizeList_nodeChildren_lt n
  have hsz := pySizeList_append rest (nodeChildren n)
  have hq : pySizeList (n :: rest) = pySize n + pySizeList rest := rfl
  obtain ⟨m, hm⟩ : ∃ m, pySize n = m + 1 :=
    ⟨pySize n - 1, by have := pySize_pos n; omega⟩
  unfold pyWalk
  rw [hq, hm, Nat.add_right_comm]
  show n :: pyWalkF (m + pySizeList rest) (rest ++ nodeChildren n) = _
  rw [pyWalkF_congr (m + pySizeList rest) (rest ++ nodeChildren n)
    (pySizeList (rest ++ nodeChildren n)) (by omega) (by omega)]

/-! ### AST analyzer rule families (`ASTAnalyzer`) -/

/-- An entry of `ASTAnalyzer.self.issues` as built by `_add_issue`
(`line_end` is set to the line number and `confidence` to 0.8 for every
rule; the presentational `description`/`suggested_fix`/`code_snippet`
strings are elided as for `Issue`). -/
structure AstIssue where
  title : String
  severity : Severity
  rule_id : String
  line_number : Nat
  line_end : Nat
  confidence : ℚ
deriving DecidableEq, Repr

def mkAstIssue (t : String) (sev : Severity) (rid : String) (ln : Nat) :
    AstIssue :=
  { title := t, severity := sev, rule_id := rid, line_number := ln,
    line_end := ln, confidence := mkRat 4 5 }

/-- `node.lineno` (`getattr(node, 'lineno', 1)` for the two kinds that
carry none). -/
def linenoOf : PyNode → Nat
  | .module _ => 1
  | .functionDef _ _ _ _ ln _ => ln
  | .classDef _ _ ln => ln
  | .returnStmt _ ln => ln
  | .assign _ _ ln => ln
  | .augAssign _ _ _ ln => ln
  | .forStmt _ _ _ _ ln => ln
  | .whileStmt _ _ _ ln => ln
  | .ifStmt _ _ _ ln => ln
  | .withStmt _ _ ln => ln
  | .tryStmt _ _ _ _ ln => ln
  | .exceptHandler _ _ ln => ln
  | .assertStmt _ ln => ln
  | .globalStmt _ ln => ln
  | .exprStmt _ ln => ln
  | .passStmt ln => ln
  | .boolOp _ _ ln => ln
  | .binOp _ _ _ ln => ln
  | .compare _ _ _ ln => ln
  | .call _ _ _ _ ln => ln
  | .attribute _ _ ln => ln
  | .nameNode _ _ ln => ln
  | .constant _ ln => ln
  | .listLit _ ln => ln
  | .dictLit _ _ ln => ln
  | .setLit _ ln => ln
  | .listComp _ _ ln => ln
  | .compClause _ _ _ => 1

/-- Per-node contribution of `_calculate_cyclomatic_complexity`: branching
statements add one, a boolean operator chain adds one per operand beyond
the first. -/
def complexityContribution : PyNode → Nat
  | .ifStmt _ _ _ _ => 1
  | .whileStmt _ _ _ _ => 1
  | .forStmt _ _ _ _ _ => 1
  | .exceptHandler _ _ _ => 1
  | .withStmt _ _ _ => 1
  | .assertStmt _ _ => 1
  | .compClause _ _ _ => 1
  | .boolOp _ values _ => values.length - 1
  | _ => 0

/-- `ASTAnalyzer._calculate_cyclomatic_complexity`: 1 plus the
contributions over the walked function subtree. -/
def cyclomaticComplexity (f : PyNode) : Nat :=
  1 + ((pyWalk [f]).map complexityContribution).sum

def isFunctionDefNode : PyNode → Bool
  | .functionDef _ _ _ _ _ _ => true
  | _ => false

/-- The issues `_analyze_complexity` emits when visiting one node. -/
def complexityIssuesFor : PyNode → List AstIssue
  | .functionDef name args defaults body ln endLn =>
    (if cyclomaticComplexity (.functionDef name args defaults body ln endLn) > 10
      then [mkAstIssue "High Cyclomatic Complexity" .medium "high_complexity" ln]
      else []) ++
    (if endLn - ln > 50
      then [mkAstIssue "Long Function" .low "long_function" ln] else []) ++
    (if args.length > 5
      then [mkAstIssue "Too Many Parameters" .low "too_many_params" ln]
      else [])
  | .classDef _ body ln =>
    if body.countP isFunctionDefNode > 20
      then [mkAstIssue "Large Class" .medium "large_class" ln]
      else []
  | _ => []

/-- `ASTAnalyzer._analyze_complexity`. -/
def analyze_complexity (tree : PyNode) : List AstIssue :=
  (pyWalk [tree]).flatMap complexityIssuesFor

/-- The statement scan of `_check_unreachable_code`: a `return` followed
by a statement that is not a nested def/class/if/try flags the following
statement's line. -/
def isExemptAfterReturn : PyNode → Bool
  | .functionDef _ _ _ _ _ _ => true
  | .classDef _ _ _ => true
  | .ifStmt _ _ _ _ => true
  | .tryStmt _ _ _ _ _ => true
  | _ => false

def unreachableScan : List PyNode → List AstIssue
  | .returnStmt _ _ :: next :: rest =>
    (if isExemptAfterReturn next then []
      else [mkAstIssue "Unreachable Code" .medium "unreachable_code"
        (linenoOf next)]) ++ unreachableScan (next :: rest)
  | _ :: rest => unreachableScan rest
  | [] => []

/-- The issues `_analyze_code_smells` emits when visiting one node.
`_check_duplicate_code` is a no-op in the source (its body is `pass`).
The magic-number guard reads `getattr(node, 'parent', None)`, but no code
ever sets a `parent` attribute, so the guard never suppresses; a boolean
constant is an `int` in Python with value 0 or 1, always inside the
excluded set `[0, 1, -1]`. -/
def codeSmellsFor : PyNode → List AstIssue
  | .functionDef name args defaults body ln endLn =>
    (if args.length > 7
      then [mkAstIssue "Long Parameter List" .medium "long_parameter_list" ln]
      else []) ++ unreachableScan body
  | .constant (.intV z) ln =>
    if z ≠ 0 ∧ z ≠ 1 ∧ z ≠ -1
      then [mkAstIssue "Magic Number" .low "magic_number" ln] else []
  | _ => []

/-- `ASTAnalyzer._analyze_code_smells`. -/
def analyze_code_smells (tree : PyNode) : List AstIssue :=
  (pyWalk [tree]).flatMap codeSmellsFor

/-- `ast.get_docstring(node)` is truthy exactly when the first body
statement is an expression statement holding a string constant. -/
def hasDocstring : List PyNode → Bool
  | .exprStmt (.constant (.strV _) _) _ :: _ => true
  | _ => false

/-- `str.islower()`: at least one cased character and no uppercase cased
character (ASCII letters; no claim exercises non-ASCII identifiers). -/
def pyIsLowerName (s : String) : Bool :=
  let letters := s.toList.filter Char.isAlpha
  !letters.isEmpty && letters.all Char.isLower

/-- `ASTAnalyzer._is_snake_case`, literally
`name.islower() and '_' in name or name.islower()`. -/
def isSnakeCaseName (s : String) : Bool :=
  (pyIsLowerName s && s.toList.contains '_') || pyIsLowerName s

/-- `ASTAnalyzer._is_pascal_case`: `name[0].isupper() and not '_' in name`
(parser-produced names are nonempty; the empty case is mapped to false). -/
def isPascalCaseName (s : String) : Bool :=
  (match s.toList with
    | c :: _ => c.isUpper
    | [] => false) && !(s.toList.contains '_')

def isMutableLiteral : PyNode → Bool
  | .listLit _ _ => true
  | .dictLit _ _ _ => true
  | .setLit _ _ => true
  | _ => false

/-- The issues `_analyze_best_practices` emits when visiting one node (for
one node the loop's three if/elif groups run in order: docstrings, naming
conventions, mutable defaults). -/
def bestPracticesFor : PyNode → List AstIssue
  | .functionDef name args defaults body ln endLn =>
    (if !hasDocstring body && !(strStarts "_" name)
      then [mkAstIssue "Missing Docstring" .low "missing_docstring" ln]
      else []) ++
    (if !isSnakeCaseName name && !(strStarts "__" name)
      then [mkAstIssue "Naming Convention Violation" .low "function_naming" ln]
      else []) ++
    defaults.flatMap (fun d =>
      if isMutableLiteral d
        then [mkAstIssue "Mutable Default Argument" .high "mutable_default" ln]
        else [])
  | .classDef name body ln =>
    (if !hasDocstring body
      then [mkAstIssue "Missing Class Docstring" .low "missing_class_docstring" ln]
      else []) ++
    (if !isPascalCaseName name
      then [mkAstIssue "Class Naming Convention" .low "class_naming" ln]
      else [])
  | _ => []

/-- `ASTAnalyzer._analyze_best_practices`. -/
def analyze_best_practices (tree : PyNode) : List AstIssue :=
  (pyWalk [tree]).flatMap bestPracticesFor

def isNoneConst : PyNode → Bool
  | .constant .noneV _ => true
  | _ => false

/-- First-occurrence deduplication of names.  (The source iterates a
Python `set`, whose order is unspecified; the claims never depend on the
emission order of this one rule, and first-assignment order is used
here.) -/
def firstDedupStr (seen : List String) : List String → List String
  | [] => []
  | s :: rest =>
    if seen.contains s then firstDedupStr seen rest
    else s :: firstDedupStr (s :: seen) rest

def assignedNamesIn (w : List PyNode) : List String :=
  w.flatMap (fun n =>
    match n with
    | .assign targets _ _ =>
      targets.filterMap (fun t =>
        match t with
        | .nameNode id _ _ => some id
        | _ => none)
    | _ => [])

def usedNamesIn (w : List PyNode) : List String :=
  w.filterMap (fun n =>
    match n with
    | .nameNode id isLoad _ => if isLoad then some id else none
    | _ => none)

/-- `ASTAnalyzer._check_unused_variables` for a function node (issues are
reported at the function's own line). -/
def unusedVarIssues (fnode : PyNode) (ln : Nat) : List AstIssue :=
  let w := pyWalk [fnode]
  let used := usedNamesIn w
  (firstDedupStr [] (assignedNamesIn w)).flatMap (fun v =>
    if !used.contains v && !(strStarts "_" v) && v ≠ "self" && v ≠ "cls"
      then [mkAstIssue "Unused Variable" .low "unused_variable" ln]
      else [])

/-- The issues `_analyze_potential_bugs` emits when visiting one node. -/
def potentialBugsFor : PyNode → List AstIssue
  | .functionDef name args defaults body ln endLn =>
    unusedVarIssues (.functionDef name args defaults body ln endLn) ln
  | .compare _ ops comps ln =>
    comps.flatMap (fun c =>
      if isNoneConst c && ops.any (fun o => o == .eq || o == .notEq)
        then [mkAstIssue "Incorrect None Comparison" .medium "none_comparison" ln]
        else [])
  | .exceptHandler none _ ln =>
    [mkAstIssue "Bare Except Clause" .high "bare_except" ln]
  | .binOp (.constant (.strV s) _) .mod _ ln =>
    if s.toList.contains '%'
      then [mkAstIssue "Old-style String Formatting" .low "old_string_format" ln]
      else []
  | _ => []

/-- `ASTAnalyzer._analyze_potential_bugs`. -/
def analyze_potential_bugs (tree : PyNode) : List AstIssue :=
  (pyWalk [tree]).flatMap potentialBugsFor

def isAppendCall : PyNode → Bool
  | .call (.attribute _ attr _) _ _ _ _ => attr == "append"
  | _ => false

/-- `ASTAnalyzer._check_inefficient_loops`: exactly one `.append(...)`
call inside the loop. -/
def inefficientLoopIssues (forNode : PyNode) (ln : Nat) : List AstIssue :=
  if (pyWalk [forNode]).countP isAppendCall == 1
    then [mkAstIssue "Loop Could Be List Comprehension" .low "inefficient_loop" ln]
    else []

/-- The `+=`-on-a-name scan of `_analyze_performance_issues` (one issue
per matching `AugAssign` inside the loop, at the loop's line). -/
def concatInLoopIssues (forNode : PyNode) (ln : Nat) : List AstIssue :=
  (pyWalk [forNode]).flatMap (fun c =>
    match c with
    | .augAssign (.nameNode _ _ _) .add _ _ =>
      [mkAstIssue "String Concatenation in Loop" .medium "string_concat_loop" ln]
    | _ => [])

/-- The issues `_analyze_performance_issues` emits when visiting one
node. -/
def performanceFor : PyNode → List AstIssue
  | .forStmt target iter body orelse ln =>
    inefficientLoopIssues (.forStmt target iter body orelse ln) ln ++
      concatInLoopIssues (.forStmt target iter body orelse ln) ln
  | .globalStmt names ln =>
    names.flatMap (fun _ =>
      [mkAstIssue "Global Variable Usage" .low "global_usage" ln])
  | _ => []

/-- `ASTAnalyzer._analyze_performance_issues`. -/
def analyze_performance_issues (tree : PyNode) : List AstIssue :=
  (pyWalk [tree]).flatMap performanceFor

def lowerStr (s : String) : String :=
  String.mk (s.toList.map Char.toLower)

def strContains (sub s : String) : Bool :=
  containsSub sub.toList s.toList

/-- The credential-keyword test of `_analyze_security_patterns`:
`any(keyword in var_name for keyword in ['password', 'secret', 'key',
'token'])` over the lowercased target name. -/
def isCredName (id : String) : Bool :=
  let v := lowerStr id
  strContains "password" v || strContains "secret" v ||
    strContains "key" v || strContains "token" v

/-- The issues `_analyze_security_patterns` emits when visiting one node
(`eval`/`exec` calls; assignments of a string literal longer than 8
characters to a credential-named variable). -/
def astSecurityFor : PyNode → List AstIssue
  | .call (.nameNode fid _ _) _ _ _ ln =>
    if fid == "eval"
      then [mkAstIssue "Dangerous eval() Usage" .critical "eval_usage" ln]
    else if fid == "exec"
      then [mkAstIssue "Dangerous exec() Usage" .critical "exec_usage" ln]
    else []
  | .assign targets value ln =>
    targets.flatMap (fun t =>
      match t with
      | .nameNode tid _ _ =>
        if isCredName tid &&
            (match value with
              | .constant (.strV s) _ => s.length > 8
              | _ => false)
          then [mkAstIssue "Hardcoded Credential" .high "hardcoded_credential" ln]
          else []
      | _ => [])
  | _ => []

/-- `ASTAnalyzer._analyze_security_patterns`. -/
def analyze_security_patterns (tree : PyNode) : List AstIssue :=
  (pyWalk [tree]).flatMap astSecurityFor

/-- `ASTAnalyzer.analyze`: the six rule families run in order, each
appending to the shared issue list.  (The source's blanket `except`
returns `[]`, unreachable here: every family is total.) -/
def astAnalyzerAnalyze (tree : PyNode) : List AstIssue :=
  analyze_complexity tree ++ analyze_code_smells tree ++
    analyze_best_practices tree ++ analyze_potential_bugs tree ++
    analyze_performance_issues tree ++ analyze_security_patterns tree

/-! ### Claim theorem for cyclomatic complexity (C6) -/

/-- A run of `count` sequential `if x: pass` statements starting at the
given line. -/
def seqIfs : Nat → Nat → List PyNode
  | 0, _ => []
  | k + 1, ln =>
    .ifStmt (.nameNode "x" true ln) [.passStmt ln] [] ln :: seqIfs k (ln + 1)

/-- `def f(x):` with 11 sequential `if` branches, defined at line 1. -/
def elevenIfFunction : PyNode :=
  .functionDef "f" ["x"] [] (seqIfs 11 2) 1 23

def elevenIfModule : PyNode := .module [elevenIfFunction]

/-- `def g(x):` with 9 sequential `if` branches, defined at line 1. -/
def nineIfModule : PyNode :=
  .module [.functionDef "g" ["x"] [] (seqIfs 9 2) 1 19]

/-- C6: `_analyze_complexity` emits a medium-severity "High Cyclomatic
Complexity" issue at a function's definition line exactly when the
function's cyclomatic complexity (1 plus the branching contributions over
its subtree) exceeds 10: every walked function with complexity > 10
contributes its issue, every emitted `high_complexity` issue comes from
such a function at that function's line, a function of 11 sequential `if`
branches (complexity 12) produces exactly the issue at its definition
line, and one of 9 branches (complexity 10) produces none. -/
theorem high_complexity_exactly_above_ten :
    (∀ (tree f : PyNode), f ∈ pyWalk [tree] → isFunctionDefNode f = true →
      cyclomaticComplexity f > 10 →
      mkAstIssue "High Cyclomatic Complexity" .medium "high_complexity"
        (linenoOf f) ∈ analyze_complexity tree) ∧
    (∀ (tree : PyNode) (i : AstIssue), i ∈ analyze_complexity tree →
      i.rule_id = "high_complexity" →
      ∃ f, f ∈ pyWalk [tree] ∧ isFunctionDefNode f = true ∧
        cyclomaticComplexity f > 10 ∧
        i = mkAstIssue "High Cyclomatic Complexity" .medium
          "high_complexity" (linenoOf f)) ∧
    analyze_complexity elevenIfModule =
      [mkAstIssue "High Cyclomatic Complexity" .medium "high_complexity" 1] ∧
    (analyze_complexity nineIfModule).countP
      (fun i => i.rule_id == "high_complexity") = 0 := by
  refine ⟨?_, ?_, by decide, by decide⟩
  · intro tree f hf hfun hcx
    apply List.mem_flatMap.mpr
    refine ⟨f, hf, ?_⟩
    cases f <;> simp [isFunctionDefNode] at hfun
    simp only [complexityIssuesFor, linenoOf]
    rw [if_pos hcx]
    exact List.mem_append_left _ (List.mem_cons_self _ _)
  · intro tree i hi hrid
    obtain ⟨g, hg, hig⟩ := List.mem_flatMap.mp hi
    cases g
    case functionDef name args defaults body ln endLn =>
      simp only [complexityIssuesFor] at hig
      rcases List.mem_append.mp hig with h12 | h3
      · rcases List.mem_append.mp h12 with h1 | h2
        · by_cases hc :
            cyclomaticComplexity (.functionDef name args defaults body ln endLn) > 10
          · rw [if_pos hc] at h1
            simp at h1
            exact ⟨.functionDef name args defaults body ln endLn, hg, rfl, hc,
              by rw [h1]; rfl⟩
          · rw [if_neg hc] at h1
            cases h1
        · exfalso
          by_cases hl : endLn - ln > 50
          · rw [if_pos hl] at h2
            simp at h2
            rw [h2] at hrid
            simp [mkAstIssue] at hrid
          · rw [if_neg hl] at h2
            cases h2
      · exfalso
        by_cases hp : args.length > 5
        · rw [if_pos hp] at h3
          simp at h3
          rw [h3] at hrid
          simp [mkAstIssue] at hrid
        · rw [if_neg hp] at h3
          cases h3
    case classDef name body ln =>
      exfalso
      simp only [complexityIssuesFor] at hig
      by_cases hm : body.countP isFunctionDefNode > 20
      · rw [if_pos hm] at hig
        simp at hig
        rw [hig] at hrid
        simp [mkAstIssue] at hrid
      · rw [if_neg hm] at hig
        cases hig
    all_goals
      (simp only [complexityIssuesFor] at hig
       exact absurd hig (List.not_mem_nil i))

theorem high_complexity_exactly_above_ten_witness :
    mkAstIssue "High Cyclomatic Complexity" .medium "high_complexity"
      (linenoOf elevenIfFunction) ∈ analyze_complexity elevenIfModule := by
  have h1 : elevenIfFunction ∈ pyWalk [elevenIfModule] := by
    rw [pyWalk_cons]
    show elevenIfFunction ∈ elevenIfModule :: pyWalk [elevenIfFunction]
    rw [pyWalk_cons]
    exact List.Mem.tail _ (List.Mem.head _)
  exact high_complexity_exactly_above_ten.1 elevenIfModule elevenIfFunction
    h1 rfl (by decide)

/-! ### Regular-expression engine for the security rule tables
(`app/services/security_analyzer.py`)

The analyzer's rule patterns are data; `re.finditer` is embedded as a
backtracking matcher with Python's semantics: alternation prefers the left
branch, repetition is greedy, `.` does not match a newline, `\b` tests
word characters on both sides, matches are non-overlapping and scanned
left to right, and a zero-width match advances by one character.  The
matcher is structurally recursive on a fuel that bounds the backtracking
search depth; every regex fact proved here is established by concrete
evaluation, which fails outright if the fuel were too small. -/

inductive Regex where
  | eps
  | lit (c : Char)
  | anyc
  | cls (cs : List Char) (neg : Bool)
  | seq (a b : Regex)
  | alt (a b : Regex)
  | star (a : Regex)
  | opt (a : Regex)
  | wordB
deriving Repr

def isWordChar (c : Char) : Bool :=
  c.isAlphanum || c = '_'

/-- The backtracking matcher, in continuation-passing style.  `ci` is
`re.IGNORECASE`; `prev` is the character before the current position (for
`\b`); the continuation receives the new previous character and the
remaining input, and the result is the input remaining after the overall
match. -/
def reMatch (ci : Bool) :
    Nat → Regex → Option Char → List Char →
      (Option Char → List Char → Option (List Char)) → Option (List Char)
  | 0, _, _, _, _ => none
  | fuel + 1, r, prev, s, k =>
    match r with
    | .eps => k prev s
    | .lit c =>
      match s with
      | [] => none
      | d :: rest =>
        if (if ci then d.toLower == c.toLower else d == c)
          then k (some d) rest else none
    | .anyc =>
      match s with
      | [] => none
      | d :: rest => if d == '\n' then none else k (some d) rest
    | .cls cs neg =>
      match s with
      | [] => none
      | d :: rest =>
        let mem := if ci then cs.contains d.toLower else cs.contains d
        if (if neg then !mem else mem) then k (some d) rest else none
    | .seq a b =>
      reMatch ci fuel a prev s (fun p' s' => reMatch ci fuel b p' s' k)
    | .alt a b =>
      (reMatch ci fuel a prev s k).orElse (fun _ => reMatch ci fuel b prev s k)
    | .star a =>
      (reMatch ci fuel a prev s
        (fun p' s' => reMatch ci fuel (.star a) p' s' k)).orElse
        (fun _ => k prev s)
    | .opt a => (reMatch ci fuel a prev s k).orElse (fun _ => k prev s)
    | .wordB =>
      let wp := match prev with
        | some c => isWordChar c
        | none => false
      let wn := match s with
        | d :: _ => isWordChar d
        | [] => false
      if wp != wn then k prev s else none

def regexSize : Regex → Nat
  | .eps => 1
  | .lit _ => 1
  | .anyc => 1
  | .cls _ _ => 1
  | .seq a b => 1 + regexSize a + regexSize b
  | .alt a b => 1 + regexSize a + regexSize b
  | .star a => 1 + regexSize a
  | .opt a => 1 + regexSize a
  | .wordB => 1

/-- Try a match anchored at the current position; returns the number of
characters consumed.  The fuel dominates the backtracking depth for the
inputs evaluated in this development. -/
def matchHere (ci : Bool) (r : Regex) (prev : Option Char) (s : List Char) :
    Option Nat :=
  (reMatch ci ((regexSize r + 4) * (s.length + 4) * (s.length + 4)) r prev s
    (fun _ s' => some s')).map (fun s' => s.length - s'.length)

/-- `re.finditer`: non-overlapping `(start, length)` spans, scanning left
to right. -/
def findAllAux (ci : Bool) (r : Regex) :
    Nat → Option Char → List Char → Nat → List (Nat × Nat)
  | 0, _, _, _ => []
  | fuel + 1, prev, s, pos =>
    match matchHere ci r prev s with
    | some len =>
      if len == 0 then
        (pos, 0) ::
          (match s with
            | [] => []
            | c :: rest => findAllAux ci r fuel (some c) rest (pos + 1))
      else
        let consumed := s.take len
        let prev' := match consumed.getLast? with
          | some c => some c
          | none => prev
        (pos, len) :: findAllAux ci r fuel prev' (s.drop len) (pos + len)
    | none =>
      match s with
      | [] => []
      | c :: rest => findAllAux ci r fuel (some c) rest (pos + 1)

def findMatches (ci : Bool) (r : Regex) (s : List Char) : List (Nat × Nat) :=
  findAllAux ci r (s.length + 1) none s 0

/-- `re.search` (used by the context rules): does any match exist. -/
def reSearch (ci : Bool) (r : Regex) (s : List Char) : Bool :=
  !(findMatches ci r s).isEmpty

/-- `content[:match.start()].count('\n') + 1`. -/
def lineNumberAt (s : List Char) (start : Nat) : Nat :=
  (s.take start).countP (fun c => c == '\n') + 1

def rstr (t : String) : Regex :=
  t.toList.foldr (fun c acc => .seq (.lit c) acc) .eps

def seqList (l : List Regex) : Regex :=
  l.foldr .seq .eps

/-- `\s` (ASCII part; the rule patterns are only evaluated on ASCII
content here). -/
def wsR : Regex := .cls [' ', '\t', '\n', '\r', '\x0b', '\x0c'] false

def quoteR : Regex := .cls ['"', '\''] false

def notQuoteR : Regex := .cls ['"', '\''] true

def repR : Nat → Regex → Regex
  | 0, _ => .eps
  | n + 1, r => .seq r (repR n r)

/-- `r{n,}`. -/
def atLeastR (n : Nat) (r : Regex) : Regex :=
  .seq (repR n r) (.star r)

/-! ### Security analyzer rule tables and passes (`SecurityAnalyzer`) -/

/-- One finding dict of the security analyzer (presentational
`description`/`code_snippet`/`context`/`cwe`/`suggested_fix` fields
elided, as for `Issue`). -/
structure SecIssue where
  title : String
  severity : Severity
  rule_id : String
  line_number : Nat
  confidence : ℚ
deriving DecidableEq, Repr

/-- One entry of `_load_security_patterns` (the `description` and `cwe`
metadata are elided). -/
structure SecRule where
  rule_id : String
  pattern : Regex
  severity : Severity
  title : String

/-- The `'python'` table of `SecurityAnalyzer._load_security_patterns`
(the `'javascript'` and `'java'` tables are exercised by no claim and are
elided; `security_patterns.get(language, [])` yields `[]` for them in this
embedding just as for unlisted languages). -/
def pythonSecurityPatterns : List SecRule :=
  [ { rule_id := "hardcoded_password",
      pattern := seqList [rstr "password", .star wsR, .lit '=', .star wsR,
        quoteR, atLeastR 8 notQuoteR, quoteR],
      severity := .critical, title := "Hardcoded Password" },
    { rule_id := "sql_injection",
      pattern := seqList [.lit '.', rstr "execute", .star wsR, .lit '(',
        .star wsR, quoteR, .star .anyc, .lit '%', .star .anyc, quoteR,
        .star .anyc, .lit '%'],
      severity := .high, title := "Potential SQL Injection" },
    { rule_id := "command_injection",
      pattern := .alt
        (seqList [.alt (rstr "subprocess")
            (.alt (rstr "os.system") (rstr "os.popen")),
          .star wsR, .lit '(', .star (.cls [')'] true), .lit '+'])
        (.lit '%'),
      severity := .high, title := "Command Injection Risk" },
    { rule_id := "weak_crypto",
      pattern := seqList [rstr "hashlib.",
        .alt (rstr "md5") (rstr "sha1"), .lit '('],
      severity := .medium, title := "Weak Cryptographic Hash" },
    { rule_id := "insecure_random",
      pattern := seqList [rstr "random.",
        .alt (rstr "random") (.alt (rstr "randint") (rstr "choice"))],
      severity := .medium, title := "Insecure Random Generator" },
    { rule_id := "eval_usage",
      pattern := seqList [.wordB, rstr "eval", .star wsR, .lit '('],
      severity := .high, title := "Dangerous eval() Usage" },
    { rule_id := "pickle_usage",
      pattern := seqList [rstr "pickle.load", .opt (.lit 's'), .star wsR,
        .lit '('],
      severity := .high, title := "Unsafe Deserialization" },
    { rule_id := "debug_mode",
      pattern := seqList [rstr "debug", .star wsR, .lit '=', .star wsR,
        rstr "True"],
      severity := .medium, title := "Debug Mode Enabled" } ]

/-- `SecurityAnalyzer._pattern_based_analysis`
(`re.IGNORECASE | re.MULTILINE`; no pattern uses anchors, so `MULTILINE`
has no effect; pattern confidence is 0.8). -/
def pattern_based_analysis (content : List Char) (language : String) :
    List SecIssue :=
  (if language == "python" then pythonSecurityPatterns else []).flatMap
    (fun rule =>
      (findMatches true rule.pattern content).map (fun m =>
        { title := rule.title, severity := rule.severity,
          rule_id := rule.rule_id,
          line_number := lineNumberAt content m.1,
          confidence := mkRat 4 5 }))

/-- A reported Python syntax error
(`getattr(e, 'lineno', 1)`; the message is presentational and elided). -/
structure SynErr where
  lineno : Int
deriving DecidableEq, Repr

def isPassOnlyBody : List PyNode → Bool
  | [.passStmt _] => true
  | _ => false

def hasShellTrueKeyword (kwNames : List (Option String))
    (kwValues : List PyNode) : Bool :=
  (kwNames.zip kwValues).any (fun p =>
    p.1 == some "shell" &&
      (match p.2 with
        | .constant (.boolV true) _ => true
        | _ => false))

/-- The `'python'` AST rules of `_load_vulnerability_rules`, applied to
one node in table order (`assert_in_production`, `except_pass`,
`shell_true`); rule confidence is 0.9. -/
def vulnRuleIssuesFor (n : PyNode) : List SecIssue :=
  (match n with
    | .assertStmt _ ln =>
      [{ title := "Assert Statement in Production Code", severity := .low,
         rule_id := "assert_in_production", line_number := ln,
         confidence := mkRat 9 10 }]
    | _ => []) ++
  (match n with
    | .exceptHandler _ body ln =>
      if isPassOnlyBody body then
        [{ title := "Empty Exception Handler", severity := .medium,
           rule_id := "except_pass", line_number := ln,
           confidence := mkRat 9 10 }]
      else []
    | _ => []) ++
  (match n with
    | .call (.attribute _ attr _) _ kwNames kwValues ln =>
      if (attr == "call" || attr == "run" || attr == "Popen") &&
          hasShellTrueKeyword kwNames kwValues then
        [{ title := "Subprocess with shell=True", severity := .high,
           rule_id := "shell_true", line_number := ln,
           confidence := mkRat 9 10 }]
      else []
    | _ => [])

/-- `SecurityAnalyzer._python_ast_analysis`: a file with a syntax error is
skipped (`except SyntaxError: pass`). -/
def python_ast_analysis (parsed : Except SynErr PyNode) : List SecIssue :=
  match parsed with
  | .error _ => []
  | .ok tree => (pyWalk [tree]).flatMap vulnRuleIssuesFor

/-- `Path(p).name`. -/
def pathName (p : String) : String :=
  String.mk (((p.toList.reverse.takeWhile (fun c => c ≠ '/')).reverse))

/-- `Path(p).parts` (for the simple relative paths exercised here:
slash-separated components). -/
def pathParts (p : String) : List String :=
  (splitOnNl (p.toList.map (fun c => if c = '/' then '\n' else c))).map
    String.mk

/-- `Path(p).suffix`: from the last dot of the final component, unless
that dot is its first character. -/
def pyPathSuffix (p : String) : String :=
  let name := (pathName p).toList
  let revName := name.reverse
  let revExt := revName.takeWhile (fun c => c ≠ '.')
  if revExt.length = name.length then ""
  else if revExt.length + 1 = name.length then ""
  else String.mk ('.' :: revExt.reverse)

/-- `SecurityAnalyzer._is_config_file`. -/
def isConfigFile (p : String) : Bool :=
  let configExts := [".ini", ".conf", ".config", ".cfg", ".toml", ".yaml",
    ".yml", ".json"]
  let configNames := ["config", "settings", ".env", "environment"]
  configExts.contains (lowerStr (pyPathSuffix p)) ||
    configNames.contains (lowerStr (pathName p)) ||
    strStarts ".env" (pathName p)

/-- `SecurityAnalyzer._is_test_file`. -/
def isTestFile (p : String) : Bool :=
  strContains "test" (lowerStr (pathName p)) ||
    strStarts "test_" (pathName p) ||
    strEnds "_test.py" (pathName p) ||
    (pathParts p).contains "test"

/-- `SecurityAnalyzer._is_dependency_file`. -/
def isDependencyFile (p : String) : Bool :=
  let dependencyFiles := ["requirements.txt", "requirements-dev.txt",
    "setup.py", "pyproject.toml", "Pipfile", "package.json",
    "package-lock.json", "yarn.lock", "Gemfile", "Gemfile.lock",
    "composer.json", "composer.lock"]
  dependencyFiles.contains (pathName p)

def eqColonR : Regex := .cls ['=', ':'] false

/-- `SecurityAnalyzer._analyze_config_file` (four secret patterns,
`re.IGNORECASE`, confidence 0.9). -/
def analyze_config_file (content : List Char) : List SecIssue :=
  [ (seqList [rstr "password", .star wsR, eqColonR, .star wsR, quoteR,
      atLeastR 4 notQuoteR, quoteR], "Password in config file"),
    (seqList [rstr "api", .opt (.cls ['_', '-'] false), rstr "key",
      .star wsR, eqColonR, .star wsR, quoteR, atLeastR 10 notQuoteR,
      quoteR], "API key in config file"),
    (seqList [rstr "secret", .opt (.cls ['_', '-'] false), rstr "key",
      .star wsR, eqColonR, .star wsR, quoteR, atLeastR 10 notQuoteR,
      quoteR], "Secret key in config file"),
    (seqList [rstr "token", .star wsR, eqColonR, .star wsR, quoteR,
      atLeastR 10 notQuoteR, quoteR], "Token in config file")
  ].flatMap (fun pt =>
    (findMatches true pt.1 content).map (fun m =>
      { title := pt.2, severity := .high, rule_id := "config_secrets",
        line_number := lineNumberAt content m.1,
        confidence := mkRat 9 10 }))

/-- `SecurityAnalyzer._analyze_test_file` (one `re.search`,
`re.IGNORECASE`, a single issue at line 1 with confidence 0.7). -/
def analyze_test_file (content : List Char) : List SecIssue :=
  if reSearch true (seqList [rstr "password", .star .anyc, .lit '=',
      .star .anyc, quoteR, atLeastR 8 notQuoteR, quoteR]) content then
    [{ title := "Hardcoded Credentials in Tests", severity := .medium,
       rule_id := "test_credentials", line_number := 1,
       confidence := mkRat 7 10 }]
  else []

/-- `SecurityAnalyzer._analyze_dependency_file` (case-sensitive
`re.search` per package against its vulnerable versions; a single issue
at line 1 with confidence 0.8). -/
def analyze_dependency_file (content : List Char) : List SecIssue :=
  ([ ("requests", Regex.alt (rstr "2.25.0") (rstr "2.25.1")),
    ("flask", Regex.alt (rstr "1.0.0") (rstr "1.0.1")),
    ("django", Regex.alt (rstr "2.2.0") (rstr "2.2.1"))
  ] : List (String × Regex)).flatMap (fun pv =>
    if reSearch false (seqList [rstr pv.1, .star wsR,
        atLeastR 1 (.cls ['=', '>', '<', '~', '!'] false), .star wsR,
        pv.2]) content then
      [{ title := "Vulnerable Dependency: " ++ pv.1, severity := .high,
         rule_id := "vulnerable_dependency", line_number := 1,
         confidence := mkRat 4 5 }]
    else [])

/-- `SecurityAnalyzer._context_aware_analysis`. -/
def context_aware_analysis (path : String) (content : List Char) :
    List SecIssue :=
  (if isConfigFile path then analyze_config_file content else []) ++
  (if isTestFile path then analyze_test_file content else []) ++
  (if isDependencyFile path then analyze_dependency_file content else [])

/-- `SecurityAnalyzer.analyze_file`: pattern scan, then the Python AST
rules, then the context-aware rules.  The parse result is supplied by the
caller (the same CPython parse used by the AST analysis). -/
def securityAnalyzeFile (path : String) (content : List Char)
    (language : String) (parsed : Except SynErr PyNode) : List SecIssue :=
  pattern_based_analysis content language ++
    (if language == "python" then python_ast_analysis parsed else []) ++
    context_aware_analysis path content

/-! ### The per-file pipeline of `AIAnalysisService.analyze_file`

External collaborators excluded by the spec (section 1) do not appear in
the deterministic core embedded here: the OpenAI semantic pass (no API
key), the local ML quality classifier, the optional custom-rule pass
(`rules=None`), and the Tree-sitter pass (an external parser; on a file
with a Python syntax error it never runs, because `ast.parse` raises
first).  CPython's `ast.parse` is itself external: the pipeline takes its
outcome — a tree or a `SyntaxError` line — as the `parsed` argument, and
both consumers (`_ast_analysis` and the security analyzer) receive the
same outcome, as they parse the same content. -/

/-- `AIAnalysisService._ast_analysis` wrapping of one AST-analyzer issue
(`category` fixed to `code_quality`, confidence taken from the issue). -/
def astToIssue (path : String) (a : AstIssue) : Issue :=
  { title := a.title, category := "code_quality", severity := a.severity,
    rule_id := a.rule_id, file_path := path,
    line_start := Int.ofNat a.line_number,
    line_end := some (Int.ofNat a.line_end),
    confidence_score := a.confidence }

/-- `AIAnalysisService._security_analysis` wrapping of one security issue
(`category` fixed to `security`; security dicts carry no `line_end`). -/
def secToIssue (path : String) (si : SecIssue) : Issue :=
  { title := si.title, category := "security", severity := si.severity,
    rule_id := si.rule_id, file_path := path,
    line_start := Int.ofNat si.line_number, line_end := none,
    confidence_score := si.confidence }

/-- `AIAnalysisService._ast_analysis`: on a `SyntaxError` the single
`syntax` issue (severity high, rule `syntax_error`, confidence 1.0, at
the reported line); otherwise the AST analyzer's issues wrapped as
`code_quality`. -/
def ast_analysis (path : String) (language : String)
    (parsed : Except SynErr PyNode) : List Issue :=
  if language == "python" then
    match parsed with
    | .error e =>
      [{ title := "Syntax Error", category := "syntax", severity := .high,
         rule_id := "syntax_error", file_path := path,
         line_start := e.lineno, line_end := some e.lineno,
         confidence_score := 1 }]
    | .ok tree => (astAnalyzerAnalyze tree).map (astToIssue path)
  else []

/-- `AIAnalysisService._detect_language`. -/
def detect_language (path : String) : String :=
  let languageMap : List (String × String) :=
    [(".py", "python"), (".js", "javascript"), (".ts", "typescript"),
     (".jsx", "javascript"), (".tsx", "typescript"), (".java", "java"),
     (".cpp", "cpp"), (".c", "c"), (".cs", "csharp"), (".php", "php"),
     (".rb", "ruby"), (".go", "go"), (".rs", "rust")]
  match languageMap.find? (fun p => p.1 == lowerStr (pyPathSuffix path)) with
  | some p => p.2
  | none => "unknown"

/-- Python whitespace, over raw code points. -/
def pyIsSpaceCp (c : Nat) : Bool :=
  c == 32 || c == 9 || c == 10 || c == 13 || c == 11 || c == 12

/-- A Python `str` (a sequence of code points) survives
`content.encode('utf-8')` exactly when it contains no lone surrogate. -/
def utf8Encodable (cps : List Nat) : Bool :=
  cps.all (fun c => c < 1114112 && !(55296 ≤ c && c ≤ 57343))

def decodeCps (cps : List Nat) : List Char :=
  cps.map Char.ofNat

def strToCps (s : String) : List Nat :=
  s.toList.map Char.toNat

/-- The checks of `AIAnalysisService._is_code_file` after the encode
probe: nonempty after stripping, at most 1 MiB of code points, and a
known code extension.  (The encode probe itself raises
`UnicodeEncodeError` on surrogates — the `except UnicodeDecodeError`
clause does not catch it — and is handled by `analyze_file`'s blanket
handler; both routes return no issues.) -/
def is_code_file_checks (path : String) (cps : List Nat) : Bool :=
  let codeExtensions := [".py", ".js", ".ts", ".jsx", ".tsx", ".java",
    ".cpp", ".c", ".cs", ".php", ".rb", ".go", ".rs", ".kt", ".swift",
    ".dart"]
  !(cps.all pyIsSpaceCp) && cps.length ≤ 1024 * 1024 &&
    codeExtensions.contains (lowerStr (pyPathSuffix path))

/-- The deterministic issue-producing core of
`AIAnalysisService.analyze_file` for an accepted file: AST analysis, then
security analysis, then deduplication and prioritization. -/
def analyze_file_core (path : String) (content : List Char)
    (language : String) (parsed : Except SynErr PyNode) : List Issue :=
  prioritize_issues (deduplicate_issues (
    ast_analysis path language parsed ++
      (securityAnalyzeFile path content language parsed).map
        (secToIssue path)))

/-- `AIAnalysisService.analyze_file` (content as raw code points;
unencodable content raises inside `_is_code_file` and is caught by the
method's blanket handler, returning no issues). -/
def analyze_file (path : String) (cps : List Nat)
    (parsed : Except SynErr PyNode) : List Issue :=
  if !utf8Encodable cps then []
  else if !is_code_file_checks path cps then []
  else analyze_file_core path (decodeCps cps) (detect_language path) parsed

/-! ### Claim theorem for skipped files (C9) -/

/-- C9: a file whose content is binary (not UTF-8-encodable), or empty
after trimming whitespace, or over the 1 MiB cap, is skipped entirely:
`analyze_file` returns no issues and surfaces no error, whatever the
parse outcome. -/
theorem analyze_file_skips_binary_empty_large (path : String)
    (cps : List Nat) (parsed : Except SynErr PyNode)
    (h : utf8Encodable cps = false ∨ cps.all pyIsSpaceCp = true ∨
      cps.length > 1024 * 1024) :
    analyze_file path cps parsed = [] := by
  unfold analyze_file
  by_cases he : utf8Encodable cps
  · have hcf : is_code_file_checks path cps = false := by
      unfold is_code_file_checks
      rcases h with h | h | h
      · rw [he] at h
        cases h
      · simp [h]
      · simp [Nat.not_le.mpr h]
    simp [he, hcf]
  · simp [he]

theorem analyze_file_skips_binary_empty_large_witness :
    analyze_file "app.py" [32, 10] (Except.error { lineno := 1 }) = [] :=
  analyze_file_skips_binary_empty_large "app.py" [32, 10]
    (Except.error { lineno := 1 }) (Or.inr (Or.inl (by decide)))

/-! ### Claim theorems for hardcoded secrets (C7) and syntax errors (C8)

The concrete contents below are paired with their CPython parse outcomes:
`password = "abc"` and `password = "supersecret123"` parse to one-line
modules with a single assignment; `def f(:` (alone or followed by
`debug = True`) raises `SyntaxError` with `lineno` 1. -/

def abcContent : List Nat := strToCps "password = \"abc\""

def abcAst : PyNode :=
  .module [.assign [.nameNode "password" false 1]
    (.constant (.strV "abc") 1) 1]

def secretContent : List Nat := strToCps "password = \"supersecret123\""

def secretAst : PyNode :=
  .module [.assign [.nameNode "password" false 1]
    (.constant (.strV "supersecret123") 1) 1]

def defColonContent : List Nat := strToCps "def f(:"

def defColonDebugContent : List Nat := strToCps "def f(:\ndebug = True"

def isHardcodedRule (i : Issue) : Bool :=
  i.rule_id == "hardcoded_password" || i.rule_id == "hardcoded_credential"

/-- C7, counterexample: contrary to the claim, analyzing
`password = "supersecret123"` does not produce exactly one
hardcoded-credential issue — the AST analyzer's `hardcoded_credential`
rule and the security pattern analyzer's `hardcoded_password` rule both
fire, and deduplication keeps both (their titles and categories differ),
for a total of two. -/
theorem hardcoded_credential_not_single :
    ¬ ((analyze_file "app.py" secretContent (Except.ok secretAst)).countP
        isHardcodedRule = 1) := by
  decide

/-- C7, amended: `password = "abc"` (3-character literal) triggers no
hardcoded-credential issue (and no issue at all), while
`password = "supersecret123"` triggers exactly two such issues — one
`hardcoded_password` from the regex rule (severity critical) ordered
first, one `hardcoded_credential` from the AST rule (severity high) —
both located at line 1, the line of the assignment, and nothing else. -/
theorem hardcoded_credential_precision :
    analyze_file "app.py" abcContent (Except.ok abcAst) = [] ∧
    (analyze_file "app.py" secretContent (Except.ok secretAst)).map
        (fun i => (i.rule_id, i.line_start)) =
      [("hardcoded_password", 1), ("hardcoded_credential", 1)] ∧
    (analyze_file "app.py" secretContent (Except.ok secretAst)).countP
      isHardcodedRule = 2 := by
  refine ⟨by decide, by decide, by decide⟩

/-- C8, counterexample: contrary to the claim, a syntactically invalid
input does not always yield only the `syntax` issue: `def f(:` followed by
`debug = True` returns two issues (the pattern-based security scan does
not need a parse and still flags `debug_mode`). -/
theorem syntax_error_not_only_issue :
    ¬ ((analyze_file "main.py" defColonDebugContent
        (Except.error { lineno := 1 })).length = 1) := by
  decide

/-- C8, amended: for every Python file whose parse reports a syntax
error, `analyze_file` does not raise and returns exactly one issue of
category `syntax` (rule `syntax_error`, severity high, at the reported
line); any further issues come from the parse-free security scans and
carry category `security`.  For the content `def f(:` specifically the
result is exactly the one syntax issue. -/
theorem syntax_error_containment :
    (∀ (path : String) (cps : List Nat) (e : SynErr),
      utf8Encodable cps = true →
      is_code_file_checks path cps = true →
      detect_language path = "python" →
      ((analyze_file path cps (Except.error e)).countP
          (fun i => i.category == "syntax") = 1 ∧
        (∃ i ∈ analyze_file path cps (Except.error e),
          i.category = "syntax" ∧ i.rule_id = "syntax_error" ∧
          i.severity = .high ∧ i.line_start = e.lineno) ∧
        ∀ i ∈ analyze_file path cps (Except.error e),
          i.category = "syntax" ∨ i.category = "security")) ∧
    analyze_file "main.py" defColonContent (Except.error { lineno := 1 }) =
      [{ title := "Syntax Error", category := "syntax", severity := .high,
         rule_id := "syntax_error", file_path := "main.py",
         line_start := 1, line_end := some 1, confidence_score := 1 }] := by
  constructor
  · intro path cps e he hc hl
    have hgate : analyze_file path cps (Except.error e) =
        analyze_file_core path (decodeCps cps) (detect_language path)
          (Except.error e) := by
      simp [analyze_file, he, hc]
    set synI : Issue :=
      { title := "Syntax Error", category := "syntax", severity := .high,
        rule_id := "syntax_error", file_path := path,
        line_start := e.lineno, line_end := some e.lineno,
        confidence_score := 1 } with hsyn
    set M : List Issue :=
      (securityAnalyzeFile path (decodeCps cps) "python"
        (Except.error e)).map (secToIssue path) with hM
    have hcore : analyze_file path cps (Except.error e) =
        prioritize_issues (deduplicate_issues (synI :: M)) := by
      rw [hgate, hl]
      simp [analyze_file_core, ast_analysis]
    have hsec : ∀ i ∈ M, i.category = "security" := by
      intro i hi
      rw [hM] at hi
      obtain ⟨si, _, hrfl⟩ := List.mem_map.mp hi
      rw [← hrfl]
      rfl
    have hdedup : deduplicate_issues (synI :: M) =
        synI :: dedupAux [issueKey synI] M := by
      simp [deduplicate_issues, dedupAux]
    have hperm : List.Perm
        (prioritize_issues (deduplicate_issues (synI :: M)))
        (deduplicate_issues (synI :: M)) := List.perm_insertionSort _ _
    have hDsec : ∀ i ∈ dedupAux [issueKey synI] M,
        i.category = "security" := by
      intro i hi
      exact hsec i ((dedupAux_sublist _ M).subset hi)
    refine ⟨?_, ?_, ?_⟩
    · rw [hcore, hperm.countP_eq, hdedup]
      rw [List.countP_cons_of_pos _ _ (by rfl)]
      have : (dedupAux [issueKey synI] M).countP
          (fun i => i.category == "syntax") = 0 := by
        apply List.countP_eq_zero.mpr
        intro i hi
        simp [hDsec i hi]
      omega
    · refine ⟨synI, ?_, rfl, rfl, rfl, rfl⟩
      rw [hcore, hperm.mem_iff, hdedup]
      exact List.mem_cons_self _ _
    · intro i hi
      rw [hcore, hperm.mem_iff, hdedup] at hi
      rcases List.mem_cons.mp hi with h | h
      · exact Or.inl (by rw [h])
      · exact Or.inr (hDsec i h)
  · decide

theorem syntax_error_containment_witness :
    (analyze_file "main.py" defColonContent
        (Except.error { lineno := 1 })).countP
      (fun i => i.category == "syntax") = 1 :=
  (syntax_error_containment.1 "main.py" defColonContent { lineno := 1 }
    (by decide) (by decide) (by decide)).1
